import Mathlib

/-!
Verification development for the budibase repository fragment:

* `src/packages/server/src/api/controllers/plugin/npm.ts` — the npm plugin
  ingester `npmUpload`, embedded below with JavaScript strings modelled as
  `List Char` so that `startsWith` / `includes` / `split` / `join` keep the
  exact JavaScript semantics.
* `src/unnamed/part_000` — the `TestAPI._requestRaw` HTTP wrapper, embedded
  further down.

Effectful collaborators (network fetch, tarball download, filesystem
utilities) are passed in as an explicit environment, and every call the code
makes to one of them is recorded in an effect trace, so that claims about
"no network call happens" become statements about the trace.
-/

/-- JavaScript strings, modelled as lists of characters. -/
abbrev JStr := List Char

/-- JavaScript `s.startsWith(p)`. -/
def jsStartsWith (s p : JStr) : Bool := p.isPrefixOf s

/-- JavaScript `s.endsWith(p)`. -/
def jsEndsWith (s p : JStr) : Bool := p.isSuffixOf s

/-- JavaScript `s.includes(sub)`: `sub` occurs contiguously anywhere in `s`. -/
def jsIncludes (s sub : JStr) : Bool :=
  match s with
  | [] => sub.isEmpty
  | c :: rest => sub.isPrefixOf (c :: rest) || jsIncludes rest sub

/-- JavaScript falsiness of a `string | undefined` value:
`undefined` and the empty string are falsy. -/
def jsFalsyStr : Option JStr → Bool
  | none => true
  | some s => s.isEmpty

/-- The `ALLOWED_BASE_URLS` constant of `npm.ts`. -/
def ALLOWED_BASE_URLS : List JStr :=
  ["https://www.npmjs.com/package/".toList, "https://registry.npmjs.org/".toList]

/-- The `allowedPaths` constant inside `npmUpload`. -/
def allowedPaths : List JStr := ["/".toList, "/-/".toList]

/-- The `".tgz"` literal used by the direct-tarball test. -/
def tgzExt : JStr := ".tgz".toList

/-- The `".tar.gz"` literal used by the post-download file search. -/
def tarGzExt : JStr := ".tar.gz".toList

/-- `"/" + url.split("/").slice(4).join("/")`: the registry path `npmUpload`
builds from the supplied URL. -/
def registryPath (url : JStr) : JStr :=
  '/' :: List.intercalate ['/'] ((url.splitOn '/').drop 4)

/-- `new URL(path, "https://registry.npmjs.org/").toString()` for a
root-relative `path` (every path built by `registryPath` starts with `/`):
the path is resolved against the registry root. URL normalisation beyond
root-relative resolution is not modelled; no claim depends on it. -/
def resolveRegistryUrl (path : JStr) : JStr :=
  "https://registry.npmjs.org".toList ++ path

/-- `dist` object of one version entry in the registry JSON. -/
structure NpmDist where
  tarball : Option JStr
deriving DecidableEq

/-- One entry of the `versions` object in the registry JSON. -/
structure NpmVersionInfo where
  dist : Option NpmDist
deriving DecidableEq

/-- The `dist-tags` object of the registry JSON. Absent fields are `none`,
mirroring `undefined` in the parsed JavaScript object. -/
structure NpmDistTags where
  latest : Option JStr
deriving DecidableEq

/-- The parsed registry JSON body (`npmDetails` in the source). Every field
the code reads is optional, mirroring `undefined` for absent JSON keys. -/
structure NpmDetails where
  name : Option JStr
  distTags : Option NpmDistTags
  versions : Option (List (JStr × NpmVersionInfo))
deriving DecidableEq

/-- `npmDetails?.versions?.[npmVersion]?.dist?.tarball`: the optional-chained
lookup of the tarball URL. A JavaScript object index with an `undefined` key
coerces the key to the string `"undefined"`. -/
def tarballOfDetails (d : NpmDetails) (npmVersion : Option JStr) : Option JStr :=
  match d.versions with
  | none => none
  | some vs =>
    let key := npmVersion.getD "undefined".toList
    match (vs.find? fun p => p.1 == key) with
    | none => none
    | some p =>
      match p.2.dist with
      | none => none
      | some dist => dist.tarball

/-- Result of `fetch` on the registry URL: HTTP status plus the body parsed
by `response.json()`. -/
structure FetchResponse where
  status : Nat
  json : NpmDetails
deriving DecidableEq

/-- Plugin metadata, produced by the external `getPluginMetadata`; opaque to
this module. -/
structure PluginMetadata where
  info : JStr
deriving DecidableEq

/-- The errors `npmUpload` can throw. `typeError` is the JavaScript
`TypeError` raised by reading `.latest` on an `undefined` `dist-tags`
object; the others are the `new Error(...)` messages of the source. -/
inductive UploadError where
  | origin              -- "The plugin origin must be from NPM"
  | invalidPath         -- "Invalid NPM package path"
  | packageNotFound     -- "NPM Package not found"
  | typeError           -- TypeError: cannot read "latest" of undefined
  | tarballUrlNotFound  -- "NPM tarball url not found"
  | tarballFileNotFound -- "Tarball plugin file not found"
  | extraction (msg : JStr)  -- wrapped error of the try block
deriving DecidableEq

/-- Every network or filesystem call `npmUpload` makes, in order. -/
inductive Effect where
  | registryFetch (url : JStr)
  | jsonParse
  | download (tarballUrl : JStr) (name : Option JStr) (hdrs : List (JStr × JStr))
  | findFile (path : JStr)
  | extract (file : JStr) (path : JStr)
  | deleteFolder (path : JStr)
  | readMetadata (path : JStr)
deriving DecidableEq

/-- External collaborators of `npmUpload`, supplied as pure functions:
`fetch`, `downloadUnzipTarball`, `findFileRec`, the `try` block around
`extractTarball`/`deleteFolderFileSystem` (returning `some msg` when it
throws), and `getPluginMetadata`. -/
structure NpmEnv where
  fetch : JStr → FetchResponse
  download : JStr → Option JStr → List (JStr × JStr) → JStr
  findFileRec : JStr → JStr → Option JStr
  extractTry : JStr → JStr → Option JStr
  metadata : JStr → PluginMetadata

/-- `join(path, "package")` for the post-extraction cleanup. -/
def joinPath (a b : JStr) : JStr := a ++ '/' :: b

/-- The resolution step of `npmUpload` (the body of
`if (!npmTarballUrl.includes(".tgz")) { ... }`): returns the tarball URL and
plugin name handed to the download step, with the effect trace so far. -/
def resolveTarball (env : NpmEnv) (url name : JStr) :
    Except UploadError (JStr × Option JStr) × List Effect :=
  if !(jsIncludes url tgzExt) then
    let path := registryPath url
    if !(allowedPaths.any fun a => jsStartsWith path a) then
      (.error .invalidPath, [])
    else
      let npmPackageURl := resolveRegistryUrl path
      let response := env.fetch npmPackageURl
      if response.status != 200 then
        (.error .packageNotFound, [.registryFetch npmPackageURl])
      else
        let npmDetails := response.json
        let pluginName := npmDetails.name
        match npmDetails.distTags with
        | none => (.error .typeError, [.registryFetch npmPackageURl, .jsonParse])
        | some dt =>
          let npmVersion := dt.latest
          let npmTarballUrl := tarballOfDetails npmDetails npmVersion
          match npmTarballUrl with
          | none =>
            (.error .tarballUrlNotFound, [.registryFetch npmPackageURl, .jsonParse])
          | some t =>
            if t.isEmpty then
              (.error .tarballUrlNotFound, [.registryFetch npmPackageURl, .jsonParse])
            else
              (.ok (t, pluginName), [.registryFetch npmPackageURl, .jsonParse])
  else
    (.ok (url, some name), [])

/-- The download/unpack/metadata phase of `npmUpload` (everything after the
resolution block), with `effs` the effects accumulated so far. -/
def downloadPhase (env : NpmEnv) (npmTarballUrl : JStr) (pluginName : Option JStr)
    (hdrs : List (JStr × JStr)) (effs : List Effect) :
    Except UploadError PluginMetadata × List Effect :=
  let path := env.download npmTarballUrl pluginName hdrs
  let effs := effs ++ [.download npmTarballUrl pluginName hdrs]
  match env.findFileRec path tarGzExt with
  | none => (.error .tarballFileNotFound, effs ++ [.findFile path])
  | some tarballPluginFile =>
    let effs := effs ++ [.findFile path]
    match env.extractTry tarballPluginFile path with
    | some msg => (.error (.extraction msg), effs ++ [.extract tarballPluginFile path])
    | none =>
      (.ok (env.metadata path),
        effs ++ [.extract tarballPluginFile path,
                 .deleteFolder (joinPath path "package".toList),
                 .readMetadata path])

/-- `npmUpload(url, name, headers)` of `npm.ts`: origin validation, optional
registry resolution, then download/unpack/metadata. The second component is
the trace of every network/filesystem call performed. -/
def npmUpload (env : NpmEnv) (url name : JStr) (hdrs : List (JStr × JStr)) :
    Except UploadError PluginMetadata × List Effect :=
  let isValidBaseUrl := ALLOWED_BASE_URLS.any fun b => jsStartsWith url b
  if !isValidBaseUrl then
    (.error .origin, [])
  else
    match resolveTarball env url name with
    | (.error e, effs) => (.error e, effs)
    | (.ok (npmTarballUrl, pluginName), effs) =>
      downloadPhase env npmTarballUrl pluginName hdrs effs

/-- Does the upload result carry exactly the error `e`? -/
def hasUploadError {α : Type} (r : Except UploadError α × List Effect)
    (e : UploadError) : Bool :=
  match r.1 with
  | .error e2 => e2 == e
  | .ok _ => false

/-- Does the trace contain a registry fetch? -/
def hasRegistryFetch (effs : List Effect) : Bool :=
  effs.any fun eff =>
    match eff with
    | .registryFetch _ => true
    | _ => false

/-- Claim C1: a URL that starts with neither allow-listed base is rejected
with the origin error, and no network or filesystem effect is performed. -/
theorem npmUpload_bad_origin (env : NpmEnv) (url name : JStr)
    (hdrs : List (JStr × JStr))
    (h : (ALLOWED_BASE_URLS.any fun b => jsStartsWith url b) = false) :
    npmUpload env url name hdrs = (.error .origin, []) := by
  unfold npmUpload
  simp [h]

/-- The path `npmUpload` constructs always starts with `"/"`, hence always
passes the secondary `allowedPaths` check. -/
theorem registryPath_allowed (url : JStr) :
    (allowedPaths.any fun a => jsStartsWith (registryPath url) a) = true := by
  have h : "/".toList = ['/'] := rfl
  simp [allowedPaths, jsStartsWith, registryPath, h, List.isPrefixOf]

/-- `jsIncludes` agrees with list infixes. -/
theorem jsIncludes_iff_sub (s sub : JStr) :
    jsIncludes s sub = true ↔ sub <:+: s := by
  induction s with
  | nil => simp [jsIncludes, List.isEmpty_iff]
  | cons c rest ih =>
    simp [jsIncludes, Bool.or_eq_true, List.isPrefixOf_iff_prefix, ih,
      List.infix_cons_iff]

/-- A suffix occurrence is in particular an occurrence anywhere. -/
theorem jsEndsWith_includes (s p : JStr) (h : jsEndsWith s p = true) :
    jsIncludes s p = true := by
  unfold jsEndsWith at h
  exact (jsIncludes_iff_sub s p).mpr (List.isSuffixOf_iff_suffix.mp h).isInfix

/-- A URL containing `".tgz"` skips the whole resolution block. -/
theorem resolveTarball_tgz (env : NpmEnv) (url name : JStr)
    (h : jsIncludes url tgzExt = true) :
    resolveTarball env url name = (.ok (url, some name), []) := by
  unfold resolveTarball
  simp [h]

/-- For a `".tgz"`-containing allow-listed URL, `npmUpload` is exactly the
download phase applied to the unmodified URL with an empty prior trace. -/
theorem npmUpload_tgz_skip (env : NpmEnv) (url name : JStr)
    (hdrs : List (JStr × JStr))
    (hbase : (ALLOWED_BASE_URLS.any fun b => jsStartsWith url b) = true)
    (h : jsIncludes url tgzExt = true) :
    npmUpload env url name hdrs = downloadPhase env url (some name) hdrs [] := by
  unfold npmUpload
  simp [hbase, resolveTarball_tgz env url name h]

/-- The download phase performs no registry fetch. -/
theorem downloadPhase_no_fetch (env : NpmEnv) (t : JStr) (p : Option JStr)
    (hdrs : List (JStr × JStr)) :
    hasRegistryFetch (downloadPhase env t p hdrs []).2 = false := by
  rcases hf : env.findFileRec (env.download t p hdrs) tarGzExt with _ | f
  · simp [downloadPhase, hf, hasRegistryFetch]
  · rcases he : env.extractTry f (env.download t p hdrs) with _ | m
    · simp [downloadPhase, hf, he, hasRegistryFetch]
    · simp [downloadPhase, hf, he, hasRegistryFetch]

/-- The first effect of the download phase is the tarball download itself,
receiving exactly the tarball URL and name it was given. -/
theorem downloadPhase_head (env : NpmEnv) (t : JStr) (p : Option JStr)
    (hdrs : List (JStr × JStr)) :
    (downloadPhase env t p hdrs []).2.head? = some (.download t p hdrs) := by
  rcases hf : env.findFileRec (env.download t p hdrs) tarGzExt with _ | f
  · simp [downloadPhase, hf]
  · rcases he : env.extractTry f (env.download t p hdrs) with _ | m
    · simp [downloadPhase, hf, he]
    · simp [downloadPhase, hf, he]

/-- The resolution step never produces the `invalidPath` error. -/
theorem resolveTarball_not_invalid (env : NpmEnv) (url name : JStr) :
    hasUploadError (resolveTarball env url name) UploadError.invalidPath = false := by
  by_cases h : jsIncludes url tgzExt = true
  · simp [resolveTarball, h, hasUploadError]
  · simp only [Bool.not_eq_true] at h
    rcases hdt : (env.fetch (resolveRegistryUrl (registryPath url))).json.distTags
      with _ | dt
    · by_cases hs : (env.fetch (resolveRegistryUrl (registryPath url))).status = 200 <;>
        simp [resolveTarball, h, registryPath_allowed url, hdt, hs, hasUploadError]
    · rcases htb : tarballOfDetails (env.fetch (resolveRegistryUrl (registryPath url))).json
        dt.latest with _ | t
      · by_cases hs : (env.fetch (resolveRegistryUrl (registryPath url))).status = 200 <;>
          simp [resolveTarball, h, registryPath_allowed url, hdt, htb, hs, hasUploadError]
      · by_cases hs : (env.fetch (resolveRegistryUrl (registryPath url))).status = 200 <;>
        by_cases hemp : t.isEmpty = true <;>
          simp [resolveTarball, h, registryPath_allowed url, hdt, htb, hs, hemp, hasUploadError]

/-- The download phase never produces the `invalidPath` error. -/
theorem downloadPhase_not_invalid (env : NpmEnv) (t : JStr) (p : Option JStr)
    (hdrs : List (JStr × JStr)) (effs : List Effect) :
    hasUploadError (downloadPhase env t p hdrs effs) UploadError.invalidPath = false := by
  rcases hf : env.findFileRec (env.download t p hdrs) tarGzExt with _ | f
  · simp [downloadPhase, hf, hasUploadError]
  · rcases he : env.extractTry f (env.download t p hdrs) with _ | m
    · simp [downloadPhase, hf, he, hasUploadError]
    · simp [downloadPhase, hf, he, hasUploadError]

/-- Claim C9: the path constructed in the resolution step always starts with
`"/"`, so the secondary `allowedPaths` check always passes and the
`"Invalid NPM package path"` branch of `npmUpload` is unreachable. -/
theorem npmUpload_invalid_path_unreachable (env : NpmEnv) (url name : JStr)
    (hdrs : List (JStr × JStr)) :
    (allowedPaths.any fun a => jsStartsWith (registryPath url) a) = true ∧
    hasUploadError (npmUpload env url name hdrs) UploadError.invalidPath = false := by
  refine ⟨registryPath_allowed url, ?_⟩
  unfold npmUpload
  by_cases hb : (ALLOWED_BASE_URLS.any fun b => jsStartsWith url b) = true
  · simp only [hb, Bool.not_true, Bool.false_eq_true, if_false]
    have hr := resolveTarball_not_invalid env url name
    rcases hres : resolveTarball env url name with ⟨r, effs⟩
    rcases r with e | ok
    · rw [hres] at hr
      simpa [hasUploadError] using hr
    · exact downloadPhase_not_invalid env ok.1 ok.2 hdrs effs
  · simp only [Bool.not_eq_true] at hb
    simp [hb, hasUploadError]

/-- Claim C6: for an allow-listed non-tarball URL, a registry response with
any status other than 200 makes `npmUpload` fail with exactly the
`"NPM Package not found"` error, after exactly one fetch and before any JSON
parse or download. -/
theorem npmUpload_non200 (env : NpmEnv) (url name : JStr)
    (hdrs : List (JStr × JStr))
    (hbase : (ALLOWED_BASE_URLS.any fun b => jsStartsWith url b) = true)
    (htgz : jsIncludes url tgzExt = false)
    (hstatus : ((env.fetch (resolveRegistryUrl (registryPath url))).status != 200) = true) :
    npmUpload env url name hdrs =
      (.error .packageNotFound,
        [.registryFetch (resolveRegistryUrl (registryPath url))]) := by
  unfold npmUpload resolveTarball
  simp [hbase, htgz, registryPath_allowed url, hstatus]

/-- Claim C7: for an allow-listed URL that ends in `".tgz"`, `npmUpload`
skips resolution entirely: it equals the download phase on the unmodified
URL, its trace contains no registry fetch, and its first effect is the
download of exactly the supplied URL. -/
theorem npmUpload_direct_tarball (env : NpmEnv) (url name : JStr)
    (hdrs : List (JStr × JStr))
    (hbase : (ALLOWED_BASE_URLS.any fun b => jsStartsWith url b) = true)
    (hend : jsEndsWith url tgzExt = true) :
    npmUpload env url name hdrs = downloadPhase env url (some name) hdrs [] ∧
    hasRegistryFetch (npmUpload env url name hdrs).2 = false ∧
    (npmUpload env url name hdrs).2.head? = some (.download url (some name) hdrs) := by
  have h := jsEndsWith_includes url tgzExt hend
  have he := npmUpload_tgz_skip env url name hdrs hbase h
  refine ⟨he, ?_, ?_⟩ <;> rw [he]
  · exact downloadPhase_no_fetch env url (some name) hdrs
  · exact downloadPhase_head env url (some name) hdrs

/-- Claim C10: for an allow-listed URL containing `".tgz"` anywhere (not
only as a suffix), `npmUpload` skips resolution entirely: no registry fetch,
and the supplied URL goes verbatim to the download step. -/
theorem npmUpload_tgz_anywhere (env : NpmEnv) (url name : JStr)
    (hdrs : List (JStr × JStr))
    (hbase : (ALLOWED_BASE_URLS.any fun b => jsStartsWith url b) = true)
    (hincl : jsIncludes url tgzExt = true) :
    npmUpload env url name hdrs = downloadPhase env url (some name) hdrs [] ∧
    hasRegistryFetch (npmUpload env url name hdrs).2 = false ∧
    (npmUpload env url name hdrs).2.head? = some (.download url (some name) hdrs) := by
  have he := npmUpload_tgz_skip env url name hdrs hbase hincl
  refine ⟨he, ?_, ?_⟩ <;> rw [he]
  · exact downloadPhase_no_fetch env url (some name) hdrs
  · exact downloadPhase_head env url (some name) hdrs

/-- Claim C3 (amended): for an allow-listed non-tarball URL whose registry
response has status 200 and whose JSON does carry a `dist-tags` object, if
the optional chain to the tagged version's tarball yields `undefined` (or an
empty string), `npmUpload` fails with `"NPM tarball url not found"` after the
fetch and JSON parse, and never invokes the download. -/
theorem npmUpload_missing_tarball (env : NpmEnv) (url name : JStr)
    (hdrs : List (JStr × JStr)) (dt : NpmDistTags)
    (hbase : (ALLOWED_BASE_URLS.any fun b => jsStartsWith url b) = true)
    (htgz : jsIncludes url tgzExt = false)
    (hstatus : (env.fetch (resolveRegistryUrl (registryPath url))).status = 200)
    (hdt : (env.fetch (resolveRegistryUrl (registryPath url))).json.distTags = some dt)
    (htb : jsFalsyStr (tarballOfDetails
      (env.fetch (resolveRegistryUrl (registryPath url))).json dt.latest) = true) :
    npmUpload env url name hdrs =
      (.error .tarballUrlNotFound,
        [.registryFetch (resolveRegistryUrl (registryPath url)), .jsonParse]) := by
  unfold npmUpload resolveTarball
  rcases htbv : tarballOfDetails
      (env.fetch (resolveRegistryUrl (registryPath url))).json dt.latest with _ | t
  · simp [hbase, htgz, registryPath_allowed url, hstatus, hdt, htbv]
  · have hemp : t.isEmpty = true := by simpa [jsFalsyStr, htbv] using htb
    simp [hbase, htgz, registryPath_allowed url, hstatus, hdt, htbv, hemp]

deriving instance DecidableEq for Except

/-- Default registry JSON with every field absent. -/
def emptyDetails : NpmDetails := { name := none, distTags := none, versions := none }

/-- Concrete environment for the C1 witness. -/
def envW1 : NpmEnv :=
  { fetch := fun _ => { status := 404, json := emptyDetails }
    download := fun _ _ _ => "/tmp/plugin".toList
    findFileRec := fun _ _ => none
    extractTry := fun _ _ => none
    metadata := fun _ => { info := [] } }

/-- A URL from neither allow-listed base. -/
def urlW1 : JStr := "https://example.com/evil-plugin".toList

/-- Witness for claim C1 at a concrete non-NPM URL. -/
theorem npmUpload_bad_origin_witness :
    (ALLOWED_BASE_URLS.any fun b => jsStartsWith urlW1 b) = false ∧
    npmUpload envW1 urlW1 "evil".toList [] = (.error .origin, []) :=
  ⟨by decide, npmUpload_bad_origin envW1 urlW1 "evil".toList [] (by decide)⟩

/-- Registry environment answering 200 with a JSON body that has a `name`
but no `dist-tags` object at all (C3 counterexample input). -/
def env3 : NpmEnv :=
  { fetch := fun _ =>
      { status := 200
        json := { name := some "foo".toList, distTags := none, versions := none } }
    download := fun _ _ _ => "/tmp/plugin".toList
    findFileRec := fun _ _ => none
    extractTry := fun _ _ => none
    metadata := fun _ => { info := [] } }

/-- An allow-listed registry URL. -/
def url3 : JStr := "https://registry.npmjs.org/foo".toList

/-- Counterexample to claim C3 as stated: when the registry JSON lacks the
`dist-tags` object entirely (so it certainly lacks `dist-tags.latest`), the
code crashes with a TypeError while reading `.latest` of `undefined`; it does
not throw `"NPM tarball url not found"`. The download is still never
reached. -/
theorem npmUpload_missing_dist_tags_cex :
    (npmUpload env3 url3 "foo".toList []).1 = Except.error UploadError.typeError ∧
    ((npmUpload env3 url3 "foo".toList []).1 ==
      Except.error UploadError.tarballUrlNotFound) = false ∧
    hasRegistryFetch (npmUpload env3 url3 "foo".toList []).2 = true := by
  refine ⟨by decide, by decide, by decide⟩

/-- Registry environment whose JSON has a `dist-tags` object but no usable
tarball (C3 amended witness input). -/
def env3b : NpmEnv :=
  { fetch := fun _ =>
      { status := 200
        json := { name := some "foo".toList
                  distTags := some { latest := none }
                  versions := none } }
    download := fun _ _ _ => "/tmp/plugin".toList
    findFileRec := fun _ _ => none
    extractTry := fun _ _ => none
    metadata := fun _ => { info := [] } }

/-- Witness for the amended claim C3 at a concrete registry response. -/
theorem npmUpload_missing_tarball_witness :
    jsIncludes url3 tgzExt = false ∧
    (env3b.fetch (resolveRegistryUrl (registryPath url3))).status = 200 ∧
    (env3b.fetch (resolveRegistryUrl (registryPath url3))).json.distTags =
      some { latest := none } ∧
    npmUpload env3b url3 "foo".toList [] =
      (.error .tarballUrlNotFound,
        [.registryFetch (resolveRegistryUrl (registryPath url3)), .jsonParse]) :=
  ⟨by decide, by decide, by decide,
    npmUpload_missing_tarball env3b url3 "foo".toList [] { latest := none }
      (by decide) (by decide) (by decide) (by decide) (by decide)⟩

/-- Environment answering 404 to every fetch (C6 witness input). -/
def envW6 : NpmEnv :=
  { fetch := fun _ => { status := 404, json := emptyDetails }
    download := fun _ _ _ => "/tmp/plugin".toList
    findFileRec := fun _ _ => none
    extractTry := fun _ _ => none
    metadata := fun _ => { info := [] } }

/-- An allow-listed package-page URL. -/
def urlW6 : JStr := "https://www.npmjs.com/package/foo".toList

/-- Witness for claim C6 at a concrete 404 registry response. -/
theorem npmUpload_non200_witness :
    (ALLOWED_BASE_URLS.any fun b => jsStartsWith urlW6 b) = true ∧
    jsIncludes urlW6 tgzExt = false ∧
    ((envW6.fetch (resolveRegistryUrl (registryPath urlW6))).status != 200) = true ∧
    npmUpload envW6 urlW6 "foo".toList [] =
      (.error .packageNotFound,
        [.registryFetch (resolveRegistryUrl (registryPath urlW6))]) :=
  ⟨by decide, by decide, by decide,
    npmUpload_non200 envW6 urlW6 "foo".toList [] (by decide) (by decide) (by decide)⟩

/-- Environment for the C7 witness. -/
def envW7 : NpmEnv :=
  { fetch := fun _ => { status := 200, json := emptyDetails }
    download := fun _ _ _ => "/tmp/plugin".toList
    findFileRec := fun _ _ => none
    extractTry := fun _ _ => none
    metadata := fun _ => { info := [] } }

/-- A direct tarball URL on the registry host. -/
def urlW7 : JStr := "https://registry.npmjs.org/foo/-/foo-1.0.0.tgz".toList

/-- Witness for claim C7 at a concrete direct tarball URL. -/
theorem npmUpload_direct_tarball_witness :
    (ALLOWED_BASE_URLS.any fun b => jsStartsWith urlW7 b) = true ∧
    jsEndsWith urlW7 tgzExt = true ∧
    (npmUpload envW7 urlW7 "foo".toList [] =
        downloadPhase envW7 urlW7 (some "foo".toList) [] [] ∧
      hasRegistryFetch (npmUpload envW7 urlW7 "foo".toList []).2 = false ∧
      (npmUpload envW7 urlW7 "foo".toList []).2.head? =
        some (.download urlW7 (some "foo".toList) [])) :=
  ⟨by decide, by decide,
    npmUpload_direct_tarball envW7 urlW7 "foo".toList [] (by decide) (by decide)⟩

/-- Environment for the C10 witness. -/
def envW10 : NpmEnv :=
  { fetch := fun _ => { status := 200, json := emptyDetails }
    download := fun _ _ _ => "/tmp/plugin".toList
    findFileRec := fun _ _ => none
    extractTry := fun _ _ => none
    metadata := fun _ => { info := [] } }

/-- A URL containing `".tgz"` in the middle, not as a suffix. -/
def urlW10 : JStr := "https://www.npmjs.com/package/foo.tgz.bak".toList

/-- Witness for claim C10 at a URL whose `".tgz"` is not a suffix. -/
theorem npmUpload_tgz_anywhere_witness :
    (ALLOWED_BASE_URLS.any fun b => jsStartsWith urlW10 b) = true ∧
    jsIncludes urlW10 tgzExt = true ∧
    jsEndsWith urlW10 tgzExt = false ∧
    (npmUpload envW10 urlW10 "foo".toList [] =
        downloadPhase envW10 urlW10 (some "foo".toList) [] [] ∧
      hasRegistryFetch (npmUpload envW10 urlW10 "foo".toList []).2 = false ∧
      (npmUpload envW10 urlW10 "foo".toList []).2.head? =
        some (.download urlW10 (some "foo".toList) [])) :=
  ⟨by decide, by decide, by decide,
    npmUpload_tgz_anywhere envW10 urlW10 "foo".toList [] (by decide) (by decide)⟩

/-!
Embedding of `TestAPI._requestRaw` from `src/unnamed/part_000`. Request
options are per-call values; the supertest transport and the
`getHeaders(opts, { "x-budibase-include-stacktrace": "true" })` auth-header
resolution are external collaborators, supplied as an environment. Each
attempt actually handed to the transport is recorded as a `RequestDesc`, so
"no network I/O happened" is "the attempt list is empty".
-/

/-- The HTTP verbs of the wrapper. -/
inductive Method where
  | get | post | put | patch | delete
deriving DecidableEq

/-- A request-header value: `string | string[]` (`Headers` type). -/
inductive HeaderVal where
  | one (s : String)
  | many (ss : List String)
deriving DecidableEq

/-- An expected-header value of `Expectations.headers`:
`string | RegExp` (`undefined` is modelled by wrapping in `Option`). -/
inductive HVal where
  | str (s : String)
  | regex (source : String)
deriving DecidableEq

/-- The `Expectations` interface. `none` models an absent field. -/
structure Expectations where
  status : Option Nat
  headers : Option (List (String × Option HVal))
  headersNotPresent : Option (List String)
  body : Option String
deriving DecidableEq

/-- A `files` map value: either an explicit name+content `AttachedFile`
object or a bare attachment payload (buffer/stream/path, abstracted as a
string). An absent (`undefined`) map value is `none` at the use site. -/
inductive FileArg where
  | attachedFile (name : String) (file : String)
  | plain (content : String)
deriving DecidableEq

/-- The `RequestOpts` interface; every field is optional. The `body`,
`fields` and file payloads are opaque to the wrapper and abstracted as
strings. -/
structure RequestOpts where
  headers : Option (List (String × Option HeaderVal))
  query : Option (List (String × Option String))
  body : Option String
  fields : Option (List (String × String))
  files : Option (List (String × Option FileArg))
  expectations : Option Expectations
  publicUser : Option Bool
  useProdApp : Option Bool
deriving DecidableEq

/-- The `isAttachedFile` duck-type check: true exactly for an object with
`file` and `name` properties; false for `undefined` and bare payloads. -/
def isAttachedFile : Option FileArg → Bool
  | some (.attachedFile _ _) => true
  | _ => false

/-- What `req.attach` receives for one `files` entry. -/
inductive Attachment where
  | named (key name file : String)
  | bare (key : String) (value : Option FileArg)
deriving DecidableEq

/-- The `files` loop: named attach when `isAttachedFile`, bare attach
otherwise. -/
def attachmentsOf (files : List (String × Option FileArg)) : List Attachment :=
  files.map fun p =>
    match p.2 with
    | some (.attachedFile n f) => .named p.1 n f
    | v => .bare p.1 v

/-- The query loop: push `key=value` for every truthy value, in entry
order. A `string | undefined` value is truthy iff present and non-empty. -/
def buildQueryParams (query : List (String × Option String)) : List String :=
  query.foldl
    (fun queryParams p =>
      match p.2 with
      | some v => if v == "" then queryParams else queryParams ++ [p.1 ++ "=" ++ v]
      | none => queryParams)
    []

/-- `if (queryParams.length) url += "?" + queryParams.join("&")`. -/
def appendQuery (url : String) (query : List (String × Option String)) : String :=
  let queryParams := buildQueryParams query
  if queryParams.length != 0 then url ++ "?" ++ String.intercalate "&" queryParams
  else url

/-- JavaScript property read `m[k]` on an object modelled as an entry list:
`none` for an absent key, `some v` for a present key bound to `v`. -/
def jsGet (m : List (String × Option HVal)) (k : String) : Option (Option HVal) :=
  (m.find? fun p => p.1 == k).map (·.2)

/-- JavaScript property write `m[k] = v`: update in place if the key
exists (preserving entry order), else append. -/
def jsSet (m : List (String × Option HVal)) (k : String) (v : Option HVal) :
    List (String × Option HVal) :=
  if m.any fun p => p.1 == k then
    m.map fun p => if p.1 == k then (k, v) else p
  else m ++ [(k, v)]

/-- Truthiness of an expected-header value: `undefined` and the empty
string are falsy, a RegExp object is always truthy. -/
def hvalTruthy : Option HVal → Bool
  | none => false
  | some (.str s) => !(s == "")
  | some (.regex _) => true

/-- Truthiness of the property read `m[k]`. -/
def lookupTruthy (m : List (String × Option HVal)) (k : String) : Bool :=
  match jsGet m k with
  | none => false
  | some v => hvalTruthy v

/-- `const { status = 200 } = expectations || {}`. -/
def effectiveStatus (opts : Option RequestOpts) : Nat :=
  ((opts.bind RequestOpts.expectations).bind Expectations.status).getD 200

/-- The `"Content-Type"` key. -/
def contentTypeKey : String := "Content-Type"

/-- The `/^application\x2fjson/` pattern installed as the default
content-type expectation. -/
def jsonContentTypePattern : HVal := .regex "^application/json"

/-- `if (status !== 204 && !expectHeaders["Content-Type"]) expectHeaders["Content-Type"] = /^application\x2fjson/`. -/
def withContentTypeDefault (status : Nat) (m : List (String × Option HVal)) :
    List (String × Option HVal) :=
  if status != 204 && !(lookupTruthy m contentTypeKey) then
    jsSet m contentTypeKey (some jsonContentTypePattern)
  else m

/-- The contents of `expectations.headers` after the in-place
content-type-default mutation (the object `expectHeaders` aliases it). -/
def effectiveExpectHeaders (opts : Option RequestOpts) : List (String × Option HVal) :=
  withContentTypeDefault (effectiveStatus opts)
    (((opts.bind RequestOpts.expectations).bind Expectations.headers).getD [])

/-- First key of the map bound to `undefined`, in entry order. -/
def firstUndefinedKey (m : List (String × Option HVal)) : Option String :=
  (m.find? fun p => p.2.isNone).map (·.1)

/-- The key (if any) on which the expectation loop throws: only when
`expectations.headers` is present, and then the first entry still bound to
`undefined` after the content-type defaulting. -/
def undefinedExpectKey (opts : Option RequestOpts) : Option String :=
  match (opts.bind RequestOpts.expectations).bind Expectations.headers with
  | none => none
  | some _ => firstUndefinedKey (effectiveExpectHeaders opts)

/-- The error message thrown for an `undefined` expected header value. -/
def undefinedHeaderMessage (k : String) : String :=
  "Got an undefined expected value for header \"" ++ k ++
    "\", if you want to check for the absence of a header, use headersNotPresent"

/-- The supertest response; opaque apart from its status. -/
structure Response where
  status : Nat
deriving DecidableEq

/-- One fully-built request as handed to the transport: the method called
on `request(app)`, the final URL, the awaited `getHeaders` result, and the
headers/body/fields/attachments/header-expectations set on `req`. -/
structure RequestDesc where
  method : Method
  url : String
  authHeaders : List (String × HeaderVal)
  headers : List (String × Option HeaderVal)
  body : Option String
  fields : List (String × String)
  attachments : List Attachment
  expectHeaders : List (String × Option HVal)
deriving DecidableEq

/-- Outcome of awaiting one request: a response, or a thrown transport
error carrying its `code`. -/
inductive TransportResult where
  | ok (r : Response)
  | err (code : String)
deriving DecidableEq

/-- External collaborators of `_requestRaw`: the auth-header resolution
(`this.getHeaders(opts, extras)` with the fixed stacktrace extra) and the
transport, which sees the attempt index so that per-attempt failures can be
described. -/
structure WEnv where
  getHeaders : Option RequestOpts → List (String × HeaderVal)
  transport : Nat → RequestDesc → TransportResult

/-- The errors `_requestRaw` can throw: the synchronous undefined-header
error, or a propagated transport error. -/
inductive WrapperError where
  | undefinedHeader (key : String)
  | transportError (code : String)
deriving DecidableEq

/-- Builds the request exactly as the source does before awaiting it. -/
def buildDesc (env : WEnv) (method : Method) (finalUrl : String)
    (opts : Option RequestOpts) : RequestDesc :=
  { method := method
    url := finalUrl
    authHeaders := env.getHeaders opts
    headers := (opts.bind RequestOpts.headers).getD []
    body := opts.bind RequestOpts.body
    fields := (opts.bind RequestOpts.fields).getD []
    attachments := attachmentsOf ((opts.bind RequestOpts.files).getD [])
    expectHeaders :=
      match (opts.bind RequestOpts.expectations).bind Expectations.headers with
      | none => []
      | some _ => effectiveExpectHeaders opts }

/-- `_requestRaw(method, url, opts, attempt)`. The extra `fuel` argument
makes the recursion structural; the wrapper below instantiates
`fuel = 3 - attempt`, the exact bound the `attempt > 2` guard enforces, and
the source only ever enters at `attempt = 0`. The `attempt > 2` guard is
checked before `fuel` is inspected, so for every entry through
`requestRaw` the `fuel = 0` fallback is unreachable. The returned list
holds one `RequestDesc` per attempt actually awaited, in order. -/
def requestRawAux (env : WEnv) (method : Method) (opts : Option RequestOpts) :
    String → Nat → Nat → Except WrapperError Response × List RequestDesc
  | url, attempt, fuel =>
    let url := appendQuery url ((opts.bind RequestOpts.query).getD [])
    match undefinedExpectKey opts with
    | some k => (.error (.undefinedHeader k), [])
    | none =>
      let desc := buildDesc env method url opts
      match env.transport attempt desc with
      | .ok resp => (.ok resp, [desc])
      | .err code =>
        if code == "ECONNRESET" then
          if attempt > 2 then (.error (.transportError code), [desc])
          else
            match fuel with
            | 0 => (.error (.transportError code), [desc])
            | fuel + 1 =>
              let rest := requestRawAux env method opts url (attempt + 1) fuel
              (rest.1, desc :: rest.2)
        else (.error (.transportError code), [desc])

/-- `_requestRaw` as called by the wrapper's public methods: `attempt = 0`. -/
def requestRaw (env : WEnv) (method : Method) (url : String)
    (opts : Option RequestOpts) : Except WrapperError Response × List RequestDesc :=
  requestRawAux env method opts url 0 3

/-- Specification-side description of the query pairs that survive the
truthiness filter, kept in entry order. -/
def truthyQueryPairs (query : List (String × Option String)) : List (String × String) :=
  query.filterMap fun p =>
    match p.2 with
    | some v => if v == "" then none else some (p.1, v)
    | none => none

theorem buildQueryParams_aux (query : List (String × Option String))
    (acc : List String) :
    query.foldl
      (fun queryParams p =>
        match p.2 with
        | some v => if v == "" then queryParams else queryParams ++ [p.1 ++ "=" ++ v]
        | none => queryParams)
      acc
    = acc ++ (truthyQueryPairs query).map fun p => p.1 ++ "=" ++ p.2 := by
  induction query generalizing acc with
  | nil => simp [truthyQueryPairs]
  | cons q rest ih =>
    rcases q with ⟨k, v⟩
    rcases v with _ | v
    · simp only [List.foldl_cons, truthyQueryPairs, List.filterMap_cons]
      exact ih acc
    · by_cases hv : v == ""
      · simp only [List.foldl_cons, hv, if_true, truthyQueryPairs, List.filterMap_cons]
        exact ih acc
      · simp only [List.foldl_cons, hv, if_false, Bool.false_eq_true, truthyQueryPairs,
          List.filterMap_cons, List.map_cons]
        rw [ih (acc ++ [k ++ "=" ++ v])]
        simp [truthyQueryPairs]

/-- Claim C8: the wrapper's query construction joins exactly the truthy
`key=value` pairs with `&`, in entry order, and appends the result to the
URL exactly once behind `?` iff at least one truthy pair exists; with no
truthy pair the URL is unchanged. -/
theorem appendQuery_spec (url : String) (query : List (String × Option String)) :
    appendQuery url query =
      if truthyQueryPairs query = [] then url
      else url ++ "?" ++
        String.intercalate "&" ((truthyQueryPairs query).map fun p => p.1 ++ "=" ++ p.2) := by
  unfold appendQuery buildQueryParams
  rw [buildQueryParams_aux]
  rcases ht : truthyQueryPairs query with _ | ⟨a, rest⟩
  · simp
  · simp

/-- Claim C5 (amended): if, after the in-place content-type defaulting, the
present `expectations.headers` map still has a key bound to `undefined`,
the wrapper throws synchronously — no attempt reaches the transport — with
the error naming that key, whose message instructs using
`headersNotPresent`. (A `"Content-Type"` key bound to `undefined` with
expected status other than 204 is overwritten by the default JSON pattern
and does not throw; see the counterexample.) -/
theorem requestRaw_undefined_header (env : WEnv) (method : Method) (url : String)
    (opts : Option RequestOpts) (k : String)
    (h : undefinedExpectKey opts = some k) :
    requestRaw env method url opts = (.error (.undefinedHeader k), []) ∧
    jsIncludes (undefinedHeaderMessage k).toList "headersNotPresent".toList = true := by
  constructor
  · unfold requestRaw requestRawAux
    simp [h]
  · rw [jsIncludes_iff_sub]
    unfold undefinedHeaderMessage
    have h1 : ("headersNotPresent".toList) <:+
        ("\", if you want to check for the absence of a header, use headersNotPresent".toList) := by
      decide
    have h2 : ∀ x : List Char, ("headersNotPresent".toList) <:+:
        (x ++ "\", if you want to check for the absence of a header, use headersNotPresent".toList) :=
      fun x => h1.isInfix.trans (List.suffix_append x _).isInfix
    simpa [String.toList, String.data_append] using
      h2 ("Got an undefined expected value for header \"".toList ++ k.toList)

/-- A `RequestOpts` value with every field absent. -/
def optsNone : RequestOpts :=
  { headers := none, query := none, body := none, fields := none, files := none,
    expectations := none, publicUser := none, useProdApp := none }

/-- Environment whose transport always succeeds (C5 inputs). -/
def envW5 : WEnv :=
  { getHeaders := fun _ => []
    transport := fun _ _ => .ok { status := 200 } }

/-- Options declaring `expectations.headers = { "Content-Type": undefined }`
with the default expected status 200. -/
def opts5 : RequestOpts :=
  { optsNone with
    expectations := some
      { status := none
        headers := some [("Content-Type", none)]
        headersNotPresent := none
        body := none } }

/-- Counterexample to claim C5 as stated: a call whose `expectations.headers`
binds `"Content-Type"` to `undefined` (expected status 200) does NOT throw —
the in-place defaulting overwrites the entry with the JSON pattern — and one
attempt is sent over the network. -/
theorem requestRaw_content_type_undefined_cex :
    (requestRaw envW5 .get "/api/row" (some opts5)).1 = .ok { status := 200 } ∧
    (requestRaw envW5 .get "/api/row" (some opts5)).2.length = 1 := by
  refine ⟨by decide, by decide⟩

/-- Options declaring `expectations.headers = { "x-foo": undefined }`. -/
def opts5b : RequestOpts :=
  { optsNone with
    expectations := some
      { status := none
        headers := some [("x-foo", none)]
        headersNotPresent := none
        body := none } }

/-- Witness for the amended claim C5 at the key `"x-foo"`. -/
theorem requestRaw_undefined_header_witness :
    undefinedExpectKey (some opts5b) = some "x-foo" ∧
    (requestRaw envW5 .get "/api/row" (some opts5b) =
        (.error (.undefinedHeader "x-foo"), []) ∧
      jsIncludes (undefinedHeaderMessage "x-foo").toList
        "headersNotPresent".toList = true) :=
  ⟨by decide,
    requestRaw_undefined_header envW5 .get "/api/row" (some opts5b) "x-foo" (by decide)⟩

/-- Claim C2 (amended): when the transport reports `ECONNRESET` on every
attempt (and the call does not fail the synchronous header check), the
request is retried 3 additional times — 4 total attempts — and then the
connection-reset error propagates. -/
theorem requestRaw_reset_retry_bound (env : WEnv) (method : Method) (url : String)
    (opts : Option RequestOpts)
    (htrans : env.transport = fun _ _ => .err "ECONNRESET")
    (hok : undefinedExpectKey opts = none) :
    (requestRaw env method url opts).1 = .error (.transportError "ECONNRESET") ∧
    (requestRaw env method url opts).2.length = 4 := by
  unfold requestRaw
  constructor <;> simp [requestRawAux, htrans, hok]

/-- Environment whose transport resets every attempt (C2 inputs). -/
def envW2 : WEnv :=
  { getHeaders := fun _ => []
    transport := fun _ _ => .err "ECONNRESET" }

/-- Counterexample to claim C2 as stated: with a connection reset on every
attempt, 4 total attempts are made (not at most 3) before the error
propagates. -/
theorem requestRaw_reset_four_attempts_cex :
    (requestRaw envW2 .get "/api/row" none).2.length = 4 ∧
    (requestRaw envW2 .get "/api/row" none).1 =
      .error (.transportError "ECONNRESET") := by
  refine ⟨by decide, by decide⟩

/-- Witness for the amended claim C2. -/
theorem requestRaw_reset_retry_bound_witness :
    WEnv.transport envW2 = (fun _ _ => .err "ECONNRESET") ∧
    undefinedExpectKey none = none ∧
    ((requestRaw envW2 .get "/api/row" none).1 =
        .error (.transportError "ECONNRESET") ∧
      (requestRaw envW2 .get "/api/row" none).2.length = 4) :=
  ⟨rfl, rfl, requestRaw_reset_retry_bound envW2 .get "/api/row" none rfl rfl⟩

/-- Environment that resets the first attempt and succeeds afterwards
(C4 failing input). -/
def envW4 : WEnv :=
  { getHeaders := fun _ => []
    transport := fun attempt _ =>
      if attempt == 0 then .err "ECONNRESET" else .ok { status := 200 } }

/-- Options with the query map `{ a: "1" }`. -/
def opts4 : RequestOpts := { optsNone with query := some [("a", some "1")] }

/-- Claim C4 evaluated at the failing input: a connection reset on the first
attempt of `get /example` with query `{ a: "1" }` re-enters `_requestRaw`
with the already-mutated URL, so the retried attempt's URL has the query
string appended a second time — it is not the same request URL. Method,
headers, body, fields and attachments are identical across the attempts. -/
theorem requestRaw_retry_reappends_query :
    ((requestRaw envW4 .get "/example" (some opts4)).2.map RequestDesc.url) =
      ["/example?a=1", "/example?a=1?a=1"] ∧
    ((requestRaw envW4 .get "/example" (some opts4)).2.map RequestDesc.method) =
      [.get, .get] ∧
    ((requestRaw envW4 .get "/example" (some opts4)).2.map RequestDesc.headers) =
      [[], []] ∧
    ((requestRaw envW4 .get "/example" (some opts4)).2.map RequestDesc.body) =
      [none, none] ∧
    (requestRaw envW4 .get "/example" (some opts4)).1 = .ok { status := 200 } := by
  refine ⟨by decide, by decide, by decide, by decide, by decide⟩
